import Mathlib

/-!
# stolon-pgbouncer: change stream (pkg/etcd/stream.go) and failover server (pkg/failover/server.go)

A shallow embedding of the two Go source files.  Goroutines are modelled by the list of
actions they perform (log lines, lookups, sends on the output channel) and, for the
shutdown protocol, by a labelled transition system.  External collaborators (the etcd
client, the pooler, the clock, the request context) are parameters.

Go strings and byte slices are both modelled by String; int64 values by Int.
-/

namespace etcd

/-- Mirror of mvccpb.KeyValue, restricted to the two fields the stream reads. -/
structure KeyValue where
  Key : String
  Value : String
deriving DecidableEq, Repr

/-- Mirror of clientv3.Event: the stream only reads the Kv field. -/
structure Event where
  Kv : KeyValue
deriving DecidableEq, Repr

/-- Mirror of clientv3.WatchResponse: the advisory error (resp.Err()) and the events. -/
structure WatchResponse where
  Err : Option String
  Events : List Event
deriving DecidableEq, Repr

/-- Mirror of clientv3.GetResponse: the stream only reads Kvs. -/
structure GetResponse where
  Kvs : List KeyValue
deriving DecidableEq, Repr

/-- The observable actions of the two stream goroutines. -/
inductive Action where
  /-- Call of logger.Log; the first field is the event or msg text, the second the key or
  error text attached to it (empty when there is none). -/
  | log (what : String) (detail : String)
  /-- Execution of client.Get(getCtx, key). -/
  | get (key : String)
  /-- Send on the out channel. -/
  | send (kv : KeyValue)
  /-- The select between ctx.Done() and time.After chose the timer. -/
  | wait
deriving DecidableEq, Repr

/-- Source: func includes(set []string, elem string) bool. -/
def includes (set : List String) (elem : String) : Bool :=
  match set with
  | [] => false
  | candidate :: rest => if candidate == elem then true else includes rest elem

/-- Source: stream.go lines 54-58, the loop over resp.Events. -/
def sendTracked (keys : List String) : List Event → List Action
  | [] => []
  | event :: rest =>
    if includes keys event.Kv.Key then
      Action.send event.Kv :: sendTracked keys rest
    else
      sendTracked keys rest

/-- Source: stream.go lines 50-58, the body of the range loop for one received batch. -/
def handleWatchResponse (keys : List String) (resp : WatchResponse) : List Action :=
  (match resp.Err with
    | some e => [Action.log "received error from etcd watcher" e]
    | none => []) ++ sendTracked keys resp.Events

/-- Source: stream.go lines 49-59, the range loop over one watch channel, given the
batches the channel delivers before it closes. -/
def watchRange (keys : List String) : List WatchResponse → List Action
  | [] => []
  | resp :: rest => handleWatchResponse keys resp ++ watchRange keys rest

/-- Source: stream.go lines 81-98, one pass of the poll loop over the tracked keys.  The
client is a state-passing function: each call may answer differently. -/
def pollPass {σ : Type} (Get : σ → String → Except String GetResponse × σ) :
    List String → σ → List Action × σ
  | [], s => ([], s)
  | key :: rest, s =>
    match Get s key with
    | (Except.error err, s1) =>
      let r := pollPass Get rest s1
      (Action.get key :: Action.log "failed to poll etcd" err :: r.1, r.2)
    | (Except.ok resp, s1) =>
      match resp.Kvs with
      | [] =>
        let r := pollPass Get rest s1
        (Action.get key :: Action.log "poll_missing_etcd_value" key :: r.1, r.2)
      | kv :: _ =>
        let r := pollPass Get rest s1
        (Action.get key :: Action.send kv :: r.1, r.2)

/-- Outcome of the select statement that ends each loop iteration. -/
inductive SelectOutcome where
  | ctxDone
  | timer
deriving DecidableEq, Repr

/-- Source: stream.go lines 78-107, the poll loop.  The list gives the outcome of each
successive select; when it is exhausted the loop is left blocked in its select. -/
def pollLoop {σ : Type} (Get : σ → String → Except String GetResponse × σ)
    (keys : List String) : List SelectOutcome → σ → List Action × σ
  | [], s =>
    let p := pollPass Get keys s
    (Action.log "poll_start" "" :: p.1, p.2)
  | SelectOutcome.ctxDone :: _, s =>
    let p := pollPass Get keys s
    (Action.log "poll_start" "" :: p.1 ++ [Action.log "poll_stop" ""], p.2)
  | SelectOutcome.timer :: more, s =>
    let p := pollPass Get keys s
    let r := pollLoop Get keys more p.2
    (Action.log "poll_start" "" :: p.1 ++ Action.wait :: r.1, r.2)

/-- The key-values sent on the out channel, in order. -/
def sent : List Action → List KeyValue
  | [] => []
  | Action.send kv :: rest => kv :: sent rest
  | _ :: rest => sent rest

/-- The keys looked up, in order. -/
def lookedUp : List Action → List String
  | [] => []
  | Action.get key :: rest => key :: lookedUp rest
  | _ :: rest => lookedUp rest

/-- The outcomes of the successive lookups of one pass, paired with their keys. -/
def lookups {σ : Type} (Get : σ → String → Except String GetResponse × σ) :
    List String → σ → List (String × Except String GetResponse)
  | [], _ => []
  | key :: rest, s => (key, (Get s key).1) :: lookups Get rest (Get s key).2

/-- What a lookup outcome contributes to the output: the first returned value, if any. -/
def firstValue : Except String GetResponse → Option KeyValue
  | Except.error _ => none
  | Except.ok resp => resp.Kvs.head?

/-! ## The shutdown protocol of NewStream as a transition system -/

/-- Control points of the watch goroutine (stream.go lines 42-69). -/
inductive WatchPc where
  /-- Top of the Watch loop: about to log watch_start and call client.Watch. -/
  | watchStart
  /-- Inside the range over the watch channel, waiting for the next batch. -/
  | ranging
  /-- In the select between ctx.Done() and time.After(opt.WatchRetryInterval). -/
  | selecting
  /-- After break Watch: the deferred wg.Done() and cancel() have run. -/
  | stopped
deriving DecidableEq, Repr

/-- Control points of the poll goroutine (stream.go lines 74-108). -/
inductive PollPc where
  /-- Top of the Poll loop: about to run one pass over opt.Keys. -/
  | pollStart
  /-- In the select between ctx.Done() and time.After(opt.PollInterval). -/
  | selecting
  /-- After break Poll: the deferred wg.Done() and cancel() have run. -/
  | stopped
deriving DecidableEq, Repr

/-- The state shared by the three goroutines of NewStream. -/
structure StreamState where
  /-- The caller's scope opt.Ctx is done. -/
  callerDone : Bool
  /-- The cancel function of ctx (from context.WithCancel(opt.Ctx)) has been called. -/
  cancelled : Bool
  watch : WatchPc
  poll : PollPc
  /-- Counter of the sync.WaitGroup. -/
  wg : Nat
  /-- Values sent on out so far. -/
  out : List KeyValue
  /-- The supervisor has run close(out). -/
  outClosed : Bool
  /-- The supervisor has run close(done). -/
  doneClosed : Bool
deriving DecidableEq, Repr

/-- The moves of the system: one per blocking point of the source, plus the caller
cancelling its scope. -/
inductive Label where
  /-- The caller cancels opt.Ctx (or its deadline passes). -/
  | callerCancel
  /-- Watch goroutine: log watch_start and open the watch channel. -/
  | watchOpen
  /-- Watch goroutine: the channel delivers a batch. -/
  | watchRecv (resp : WatchResponse)
  /-- Watch goroutine: the channel is closed, the range loop ends. -/
  | watchChanClosed
  /-- Watch goroutine: the select takes the time.After branch. -/
  | watchRetry
  /-- Watch goroutine: the select takes the ctx.Done() branch. -/
  | watchCtxDone
  /-- Poll goroutine: one pass; the argument gives the answer of the n-th lookup. -/
  | pollRun (answers : Nat → String → Except String GetResponse)
  /-- Poll goroutine: the select takes the time.After branch. -/
  | pollTick
  /-- Poll goroutine: the select takes the ctx.Done() branch. -/
  | pollCtxDone
  /-- Supervisor: wg.Wait() returns, then close(out) and close(done). -/
  | superviseClose

/-- State right after NewStream returns: wg.Add(2), both goroutines at their loop top. -/
def StreamState.init : StreamState :=
  { callerDone := false, cancelled := false, watch := WatchPc.watchStart,
    poll := PollPc.pollStart, wg := 2, out := [], outClosed := false, doneClosed := false }

/-- The channel ctx.Done() is closed: ctx derives from opt.Ctx by context.WithCancel. -/
def StreamState.ctxDone (s : StreamState) : Bool :=
  s.callerDone || s.cancelled

/-- A client whose n-th lookup of a pass answers as the given function says. -/
def scriptedGet (answers : Nat → String → Except String GetResponse) :
    Nat → String → Except String GetResponse × Nat :=
  fun n key => (answers n key, n + 1)

/-- One move of the system; none when the move is not possible in the state. -/
def step (keys : List String) (s : StreamState) : Label → Option StreamState
  | Label.callerCancel => some { s with callerDone := true }
  | Label.watchOpen =>
    if s.watch = WatchPc.watchStart then some { s with watch := WatchPc.ranging } else none
  | Label.watchRecv resp =>
    if s.watch = WatchPc.ranging then
      some { s with out := s.out ++ sent (handleWatchResponse keys resp) }
    else none
  | Label.watchChanClosed =>
    if s.watch = WatchPc.ranging then some { s with watch := WatchPc.selecting } else none
  | Label.watchRetry =>
    if s.watch = WatchPc.selecting then some { s with watch := WatchPc.watchStart } else none
  | Label.watchCtxDone =>
    if s.watch = WatchPc.selecting ∧ s.ctxDone = true then
      some { s with watch := WatchPc.stopped, wg := s.wg - 1, cancelled := true }
    else none
  | Label.pollRun answers =>
    if s.poll = PollPc.pollStart then
      some { s with poll := PollPc.selecting,
                    out := s.out ++ sent (pollPass (scriptedGet answers) keys 0).1 }
    else none
  | Label.pollTick =>
    if s.poll = PollPc.selecting then some { s with poll := PollPc.pollStart } else none
  | Label.pollCtxDone =>
    if s.poll = PollPc.selecting ∧ s.ctxDone = true then
      some { s with poll := PollPc.stopped, wg := s.wg - 1, cancelled := true }
    else none
  | Label.superviseClose =>
    if s.wg = 0 ∧ s.outClosed = false then
      some { s with outClosed := true, doneClosed := true }
    else none

/-- Execution of a sequence of moves; none as soon as one is not possible. -/
def run (keys : List String) (s : StreamState) : List Label → Option StreamState
  | [] => some s
  | l :: rest =>
    match step keys s l with
    | none => none
    | some s1 => run keys s1 rest

/-- While the caller scope is live, nothing of the shutdown protocol has happened. -/
def StreamState.Live (s : StreamState) : Prop :=
  s.callerDone = false →
    s.watch ≠ WatchPc.stopped ∧ s.poll ≠ PollPc.stopped ∧ s.cancelled = false
      ∧ s.outClosed = false ∧ s.doneClosed = false ∧ s.wg = 2

end etcd

namespace failover

/-! ## Collaborators of the failover server -/

/-- The two non-nil values of context.Context.Err(). -/
inductive CtxErr where
  | Canceled
  | DeadlineExceeded
deriving DecidableEq, Repr

/-- Mirror of metadata.MD (map[string][]string) as an association list. -/
abbrev MD := List (String × List String)

/-- A context.Context as the server observes it: the instant (nanoseconds) at which its
Done channel closes together with the value Err() has from then on, if that ever happens,
and the incoming gRPC metadata it carries, if any. -/
structure Context where
  doneAt : Option (Int × CtxErr)
  incoming : Option MD
deriving DecidableEq, Repr

/-- Value of ctx.Err() at instant t: nil until the context is done. -/
def Context.Err (ctx : Context) (t : Int) : Option CtxErr :=
  match ctx.doneAt with
  | none => none
  | some (td, e) => if td ≤ t then some e else none

/-- Mirror of context.Background(): never done, carries nothing. -/
def Background : Context :=
  { doneAt := none, incoming := none }

/-- Mirror of context.WithTimeout(parent, timeout) called at instant now: the child is
done when the parent is done (with the parent's error) or when the deadline now + timeout
passes (with DeadlineExceeded), whichever comes first. -/
def WithTimeout (parent : Context) (now : Int) (timeout : Int) : Context :=
  match parent.doneAt with
  | none => { parent with doneAt := some (now + timeout, CtxErr.DeadlineExceeded) }
  | some (td, _) =>
    if td ≤ now + timeout then parent
    else { parent with doneAt := some (now + timeout, CtxErr.DeadlineExceeded) }

/-- Mirror of metadata.FromIncomingContext. -/
def FromIncomingContext (ctx : Context) : Option MD :=
  ctx.incoming

/-- The gRPC status codes the server uses. -/
inductive Code where
  | Unknown
  | DeadlineExceeded
  | Unauthenticated
deriving DecidableEq, Repr

/-- A gRPC error status: code and message. -/
structure Status where
  code : Code
  message : String
deriving DecidableEq, Repr

/-- Mirror of the protobuf Timestamp. -/
structure Timestamp where
  Seconds : Int
  Nanos : Int
deriving DecidableEq, Repr

/-- The instant a Timestamp denotes, in nanoseconds since the Unix epoch. -/
def Timestamp.toNanos (ts : Timestamp) : Int :=
  ts.Seconds * 1000000000 + ts.Nanos

/-- Lower bound of ptypes.validateTimestamp: 0001-01-01T00:00:00Z. -/
def minValidSeconds : Int := -62135596800

/-- Upper bound (exclusive) of ptypes.validateTimestamp: 10000-01-01T00:00:00Z. -/
def maxValidSeconds : Int := 253402300800

/-- Mirror of ptypes.TimestampProto on an instant given in nanoseconds since the Unix
epoch: Seconds is t.Unix(), Nanos is t.Nanosecond(), then validateTimestamp. -/
def TimestampProto (t : Int) : Except String Timestamp :=
  let ts : Timestamp := { Seconds := t / 1000000000, Nanos := t % 1000000000 }
  if ts.Seconds < minValidSeconds then
    Except.error "timestamp before 0001-01-01"
  else if ts.Seconds ≥ maxValidSeconds then
    Except.error "timestamp after 10000-01-01"
  else if ts.Nanos < 0 ∨ ts.Nanos ≥ 1000000000 then
    Except.error "timestamp nanos not in range"
  else
    Except.ok ts

/-- Source: func mustTimestampProto(t time.Time) *tspb.Timestamp.  Except.error is the
panic. -/
def mustTimestampProto (t : Int) : Except String Timestamp :=
  match TimestampProto t with
  | Except.error _ =>
    Except.error "failed to convert what should have been an entirely safe timestamp"
  | Except.ok ts => Except.ok ts

/-- The pooler handle (*pgbouncer.PgBouncer) as the server uses it: each operation takes
the context it is called under and the state of the world, and gives back its error (none
for nil) and the new state of the world. -/
structure PgBouncer (σ : Type) where
  Pause : Context → σ → Option String × σ
  Resume : Context → σ → Option String × σ
  ShowDatabases : Context → σ → Option String × σ

/-- Source: type Server struct.  The logger is replaced by the log lines the functions
return; clock stands for time.Now() read in a state of the world. -/
structure Server (σ : Type) where
  bouncer : PgBouncer σ
  clock : σ → Int

/-! ## Messages -/

/-- Modelled from the spec: the generated message PauseRequest is not among the sources;
the spec gives timeout and expiry, the source reads them as int64 durations. -/
structure PauseRequest where
  Timeout : Int
  Expiry : Int
deriving DecidableEq, Repr

/-- Modelled from the spec: the generated message PauseResponse (createdAt, expiresAt). -/
structure PauseResponse where
  CreatedAt : Timestamp
  ExpiresAt : Timestamp
deriving DecidableEq, Repr

/-- Modelled from the spec: the generated message ResumeResponse (createdAt). -/
structure ResumeResponse where
  CreatedAt : Timestamp
deriving DecidableEq, Repr

/-- Modelled from the spec: the generated enum HealthCheckResponse_Status, with the two
values the source and the spec name. -/
inductive HealthStatus where
  | HEALTHY
  | UNHEALTHY
deriving DecidableEq, Repr

/-- Modelled from the spec: the generated message HealthCheckResponse_ComponentHealthCheck
(name, status, error). -/
structure ComponentHealthCheck where
  Name : String
  Status : HealthStatus
  Error : String
deriving DecidableEq, Repr

/-- Modelled from the spec: the generated message HealthCheckResponse (aggregate status
and per-component detail). -/
structure HealthCheckResponse where
  Status : HealthStatus
  Components : List ComponentHealthCheck
deriving DecidableEq, Repr

/-- What a unary RPC function hands back: the response pointer and the error, either of
which may be nil. -/
abbrev Reply (ρ : Type) := Option ρ × Option Status

/-! ## The server functions -/

/-- Source: func (s *Server) NewAuthenticationInterceptor(token string).  The handler is a
state-passing function; Except.error is a runtime panic (index out of range). -/
def NewAuthenticationInterceptor {σ ρ : Type} (token : String) (ctx : Context)
    (handler : Context → σ → Reply ρ × σ) (s : σ) : Except String (Reply ρ × σ) :=
  if token != "" then
    match FromIncomingContext ctx with
    | none => Except.ok ((none, some ⟨Code.Unauthenticated, "no metadata provided"⟩), s)
    | some md =>
      match md.lookup "authorization" with
      | none =>
        Except.ok ((none, some ⟨Code.Unauthenticated, "missing authorization header"⟩), s)
      | some authHeader =>
        match authHeader with
        | [] => Except.error "runtime error: index out of range [0] with length 0"
        | first :: _ =>
          if first != token then
            Except.ok ((none, some ⟨Code.Unauthenticated, "invalid access token"⟩), s)
          else
            Except.ok (handler ctx s)
  else
    Except.ok (handler ctx s)

/-- Source: func (s *Server) HealthCheck. -/
def HealthCheck {σ : Type} (srv : Server σ) (ctx : Context) (s : σ) :
    Reply HealthCheckResponse × σ :=
  let resp : HealthCheckResponse := { Status := HealthStatus.HEALTHY, Components := [] }
  let pgBouncerHealthCheck : ComponentHealthCheck :=
    { Name := "PgBouncer", Status := HealthStatus.HEALTHY, Error := "" }
  let probe := srv.bouncer.ShowDatabases ctx s
  let pgBouncerHealthCheck : ComponentHealthCheck :=
    match probe.1 with
    | some err => { pgBouncerHealthCheck with Status := HealthStatus.UNHEALTHY, Error := err }
    | none => pgBouncerHealthCheck
  let resp := { resp with Components := [pgBouncerHealthCheck] }
  let resp := { resp with Status := pgBouncerHealthCheck.Status }
  ((some resp, none), probe.2)

/-- The goroutine started by Pause, as a closure: the two variables it captures. -/
structure AutoResume where
  expiresAt : Int
  timeout : Int
deriving DecidableEq, Repr

/-- Everything a call of Pause does: the goroutines it starts, what it returns
(Except.error is a panic), and the state of the world it leaves. -/
structure PauseOutcome (σ : Type) where
  spawned : List AutoResume
  result : Except String (Reply PauseResponse)
  state : σ

/-- Source: func (s *Server) Pause.  The named result err is never assigned (the err of
the if statement shadows it), so the success return carries a nil error. -/
def Pause {σ : Type} (srv : Server σ) (ctx : Context) (req : PauseRequest) (s : σ) :
    PauseOutcome σ :=
  let createdAt := srv.clock s
  let timeout := req.Timeout
  let expiry := req.Expiry
  let expiresAt := createdAt + expiry
  let timeoutCtx := WithTimeout ctx (srv.clock s) timeout
  match srv.bouncer.Pause timeoutCtx s with
  | (some err, s1) =>
    if timeoutCtx.Err (srv.clock s1) = none then
      { spawned := [], result := Except.ok (none, some ⟨Code.Unknown, err⟩), state := s1 }
    else
      { spawned := [],
        result := Except.ok (none, some ⟨Code.DeadlineExceeded, "exceeded pause timeout"⟩),
        state := s1 }
  | (none, s1) =>
    let spawned : List AutoResume :=
      if req.Expiry > 0 then [{ expiresAt := expiresAt, timeout := timeout }] else []
    match mustTimestampProto createdAt with
    | Except.error p => { spawned := spawned, result := Except.error p, state := s1 }
    | Except.ok c =>
      match mustTimestampProto expiresAt with
      | Except.error p => { spawned := spawned, result := Except.error p, state := s1 }
      | Except.ok e =>
        { spawned := spawned,
          result := Except.ok (some { CreatedAt := c, ExpiresAt := e }, none),
          state := s1 }

/-- What the goroutine started by Pause does besides calling the pooler. -/
inductive TaskAction where
  /-- Log line "scheduling pgbouncer resume", with the instant it is scheduled at. -/
  | logScheduling (expiresAt : Int)
  /-- Call of time.Sleep with the given duration. -/
  | sleep (d : Int)
  /-- Log line "executing resume". -/
  | logExecuting
  /-- Log line "failed to resume pgbouncer", with the error. -/
  | logFailed (err : String)
deriving DecidableEq, Repr

/-- Source: server.go lines 121-133, the body of the goroutine started by Pause.  The
state s0 is the world when the goroutine starts (time.Until reads the clock there), the
state s the world when time.Sleep returns. -/
def AutoResume.body {σ : Type} (task : AutoResume) (srv : Server σ) (s0 s : σ) :
    List TaskAction × σ :=
  let d := task.expiresAt - srv.clock s0
  let ctx := WithTimeout Background (srv.clock s) task.timeout
  match srv.bouncer.Resume ctx s with
  | (some err, s1) =>
    ([TaskAction.logScheduling task.expiresAt, TaskAction.sleep d, TaskAction.logExecuting,
      TaskAction.logFailed err], s1)
  | (none, s1) =>
    ([TaskAction.logScheduling task.expiresAt, TaskAction.sleep d,
      TaskAction.logExecuting], s1)

/-- Source: func (s *Server) Resume.  Except.error is a panic of mustTimestampProto. -/
def Resume {σ : Type} (srv : Server σ) (ctx : Context) (s : σ) :
    Except String (Reply ResumeResponse) × σ :=
  match srv.bouncer.Resume ctx s with
  | (some err, s1) =>
    (Except.ok (none, some ⟨Code.Unknown, "failed to resume pgbouncer: " ++ err⟩), s1)
  | (none, s1) =>
    match mustTimestampProto (srv.clock s1) with
    | Except.error p => (Except.error p, s1)
    | Except.ok t => (Except.ok (some { CreatedAt := t }, none), s1)

/-! ## A recording pooler, to observe which calls a server function makes -/

/-- One call of a pooler operation, with the context it was made under. -/
inductive Call where
  | Pause (ctx : Context)
  | Resume (ctx : Context)
  | ShowDatabases (ctx : Context)
deriving DecidableEq, Repr

/-- A world made of a clock and the record of the pooler calls made so far. -/
structure World where
  clock : Int
  calls : List Call
deriving DecidableEq, Repr

/-- A server whose pooler records every call, answers it as the given function says, and
takes the given time to do so. -/
def recordingServer (answer : Call → Option String) (latency : Int) : Server World :=
  { bouncer :=
      { Pause := fun ctx w =>
          (answer (Call.Pause ctx),
            { clock := w.clock + latency, calls := w.calls ++ [Call.Pause ctx] })
        Resume := fun ctx w =>
          (answer (Call.Resume ctx),
            { clock := w.clock + latency, calls := w.calls ++ [Call.Resume ctx] })
        ShowDatabases := fun ctx w =>
          (answer (Call.ShowDatabases ctx),
            { clock := w.clock + latency, calls := w.calls ++ [Call.ShowDatabases ctx] }) }
    clock := fun w => w.clock }

/-- One Pause request as it reaches the server. -/
structure PauseCall where
  ctx : Context
  req : PauseRequest
deriving DecidableEq, Repr

/-- A sequence of Pause calls served one after the other: the goroutines started, in
order, and the final state of the world. -/
def runPauses {σ : Type} (srv : Server σ) : List PauseCall → σ → List AutoResume × σ
  | [], s => ([], s)
  | c :: rest, s =>
    let o := Pause srv c.ctx c.req s
    let r := runPauses srv rest o.state
    (o.spawned ++ r.1, r.2)

/-- The pooler call made by a Pause request in state s returns nil. -/
def poolerPauseOk {σ : Type} (srv : Server σ) (c : PauseCall) (s : σ) : Bool :=
  (srv.bouncer.Pause (WithTimeout c.ctx (srv.clock s) c.req.Timeout) s).1.isNone

/-- Number of calls of the sequence whose pooler pause succeeds and whose expiry is
positive. -/
def countScheduling {σ : Type} (srv : Server σ) : List PauseCall → σ → Nat
  | [], _ => 0
  | c :: rest, s =>
    (if poolerPauseOk srv c s = true ∧ c.req.Expiry > 0 then 1 else 0)
      + countScheduling srv rest (Pause srv c.ctx c.req s).state

/-- The status code of the error a call returned, if it returned one. -/
def replyCode {ρ : Type} : Except String (Reply ρ) → Option Code
  | Except.ok (_, some st) => some st.code
  | _ => none

/-- A handler that counts its invocations in the state of the world and answers with an
empty response. -/
def countingHandler : Context → Nat → Reply Unit × Nat :=
  fun _ n => ((some (), none), n + 1)

/-- The clock reads an instant between the Unix epoch and the last one whose nanosecond
count fits an int64 (year 2262). -/
def clockInRange (t : Int) : Prop :=
  0 ≤ t ∧ t < 9223372036854775808

/-- The value is an int64. -/
def isInt64 (v : Int) : Prop :=
  -9223372036854775808 ≤ v ∧ v < 9223372036854775808

instance (t : Int) : Decidable (clockInRange t) := by
  unfold clockInRange; infer_instance

instance (v : Int) : Decidable (isInt64 v) := by
  unfold isInt64; infer_instance

end failover

/-! # Theorems: change stream -/

namespace etcd

theorem includes_iff (set : List String) (elem : String) :
    includes set elem = true ↔ elem ∈ set := by
  induction set with
  | nil => simp [includes]
  | cons c rest ih =>
    by_cases h : c = elem
    · simp [includes, h]
    · have h2 : ¬ elem = c := fun e => h e.symm
      simp [includes, h, h2, ih]

theorem sent_append (a b : List Action) : sent (a ++ b) = sent a ++ sent b := by
  induction a with
  | nil => rfl
  | cons x rest ih => cases x <;> simp [sent, ih]

theorem sent_sendTracked (keys : List String) (evs : List Event) :
    sent (sendTracked keys evs)
      = (evs.filter (fun ev => decide (ev.Kv.Key ∈ keys))).map Event.Kv := by
  induction evs with
  | nil => rfl
  | cons ev rest ih =>
    by_cases h : ev.Kv.Key ∈ keys
    · have hi : includes keys ev.Kv.Key = true := (includes_iff _ _).2 h
      simp [sendTracked, hi, sent, ih, h]
    · have hi : includes keys ev.Kv.Key = false := by
        cases hb : includes keys ev.Kv.Key with
        | false => rfl
        | true => exact absurd ((includes_iff _ _).1 hb) h
      simp [sendTracked, hi, ih, h]

theorem sent_handleWatchResponse (keys : List String) (resp : WatchResponse) :
    sent (handleWatchResponse keys resp)
      = (resp.Events.filter (fun ev => decide (ev.Kv.Key ∈ keys))).map Event.Kv := by
  unfold handleWatchResponse
  rw [sent_append, sent_sendTracked]
  cases resp.Err <;> simp [sent]

theorem sent_watchRange (keys : List String) (resps : List WatchResponse) :
    sent (watchRange keys resps)
      = (((resps.map WatchResponse.Events).flatten).filter
          (fun ev => decide (ev.Kv.Key ∈ keys))).map Event.Kv := by
  induction resps with
  | nil => rfl
  | cons r rest ih =>
    simp [watchRange, sent_append, sent_handleWatchResponse, ih]

/-- C4: for every tracked key list and every watch batch, the values the watch loop sends
for the batch are exactly the batch's events whose key is in the tracked list, in the
batch's order, whether or not the batch carries an advisory error; every value sent during
a watch session has a tracked key; and the session goes on after any batch: its output is
the output of the first batch followed by the output of the remaining batches, that is the
tracked events of all batches in order. -/
theorem watch_emits_exactly_tracked (keys : List String) (resp : WatchResponse)
    (rest : List WatchResponse) :
    sent (handleWatchResponse keys resp)
        = (resp.Events.filter (fun ev => decide (ev.Kv.Key ∈ keys))).map Event.Kv
      ∧ sent (handleWatchResponse keys { resp with Err := none })
        = sent (handleWatchResponse keys resp)
      ∧ (∀ kv, kv ∈ sent (watchRange keys (resp :: rest)) → kv.Key ∈ keys)
      ∧ sent (watchRange keys (resp :: rest))
        = sent (handleWatchResponse keys resp) ++ sent (watchRange keys rest)
      ∧ sent (watchRange keys (resp :: rest))
        = ((((resp :: rest).map WatchResponse.Events).flatten).filter
            (fun ev => decide (ev.Kv.Key ∈ keys))).map Event.Kv := by
  refine ⟨sent_handleWatchResponse keys resp, ?_, ?_, ?_, sent_watchRange keys _⟩
  · rw [sent_handleWatchResponse, sent_handleWatchResponse]
  · intro kv hkv
    rw [sent_watchRange] at hkv
    simp only [List.mem_map, List.mem_filter, decide_eq_true_eq] at hkv
    obtain ⟨ev, ⟨_, hk⟩, rfl⟩ := hkv
    exact hk
  · simp [watchRange, sent_append]

theorem lookedUp_pollPass {σ : Type} (Get : σ → String → Except String GetResponse × σ)
    (keys : List String) (s : σ) : lookedUp (pollPass Get keys s).1 = keys := by
  induction keys generalizing s with
  | nil => rfl
  | cons key rest ih =>
    unfold pollPass
    rcases hg : Get s key with ⟨r, s1⟩
    cases r with
    | error err => simp [lookedUp, ih]
    | ok resp =>
      cases hk : resp.Kvs with
      | nil => simp [hk, lookedUp, ih]
      | cons kv more => simp [hk, lookedUp, ih]

theorem sent_pollPass {σ : Type} (Get : σ → String → Except String GetResponse × σ)
    (keys : List String) (s : σ) :
    sent (pollPass Get keys s).1
      = (lookups Get keys s).filterMap (fun p => firstValue p.2) := by
  induction keys generalizing s with
  | nil => rfl
  | cons key rest ih =>
    unfold pollPass lookups
    rcases hg : Get s key with ⟨r, s1⟩
    cases r with
    | error err => simp [sent, ih, firstValue]
    | ok resp =>
      cases hk : resp.Kvs with
      | nil => simp [hk, sent, ih, firstValue]
      | cons kv more => simp [hk, sent, ih, firstValue]

theorem wait_not_mem_pollPass {σ : Type}
    (Get : σ → String → Except String GetResponse × σ) (keys : List String) (s : σ) :
    Action.wait ∉ (pollPass Get keys s).1 := by
  induction keys generalizing s with
  | nil => simp [pollPass]
  | cons key rest ih =>
    unfold pollPass
    rcases hg : Get s key with ⟨r, s1⟩
    cases r with
    | error err => simp [ih]
    | ok resp =>
      cases hk : resp.Kvs with
      | nil => simp [hk, ih]
      | cons kv more => simp [hk, ih]

theorem lookups_keys {σ : Type} (Get : σ → String → Except String GetResponse × σ)
    (keys : List String) (s : σ) : (lookups Get keys s).map Prod.fst = keys := by
  induction keys generalizing s with
  | nil => rfl
  | cons key rest ih => simp [lookups, ih]

theorem lookups_stateless (f : String → Except String GetResponse) (keys : List String)
    (u : Unit) :
    lookups (fun (v : Unit) key => (f key, v)) keys u = keys.map (fun key => (key, f key)) := by
  induction keys with
  | nil => rfl
  | cons key rest ih => simp [lookups, ih]

theorem pollLoop_starts_with_pass {σ : Type}
    (Get : σ → String → Except String GetResponse × σ) (keys : List String)
    (selects : List SelectOutcome) (s : σ) :
    ∃ tail, (pollLoop Get keys selects s).1
      = Action.log "poll_start" "" :: (pollPass Get keys s).1 ++ tail := by
  cases selects with
  | nil => exact ⟨[], by simp [pollLoop]⟩
  | cons o more =>
    cases o with
    | ctxDone => exact ⟨[Action.log "poll_stop" ""], by simp [pollLoop]⟩
    | timer =>
      exact ⟨Action.wait :: (pollLoop Get keys more (pollPass Get keys s).2).1,
        by simp [pollLoop]⟩

/-- C5: for every tracked key list and every client (every assignment of lookup outcomes,
which may even change from call to call), one poll pass looks up every tracked key in
order and sends exactly the first returned value of each lookup that succeeded with a
non-empty result; an error or an empty result sends nothing for that key and the pass goes
on.  For a client answering by key, the output is the first value of each key that has
one, so every tracked key with a value is sent.  The poll loop performs this pass right
after its start, before any interval wait. -/
theorem poll_pass_emits_first_values {σ : Type}
    (Get : σ → String → Except String GetResponse × σ)
    (f : String → Except String GetResponse) (keys : List String)
    (selects : List SelectOutcome) (s : σ) :
    lookedUp (pollPass Get keys s).1 = keys
      ∧ (lookups Get keys s).map Prod.fst = keys
      ∧ sent (pollPass Get keys s).1
        = (lookups Get keys s).filterMap (fun p => firstValue p.2)
      ∧ sent (pollPass (fun (u : Unit) key => (f key, u)) keys ()).1
        = keys.filterMap (fun key => firstValue (f key))
      ∧ (∀ key kv more, key ∈ keys → f key = Except.ok { Kvs := kv :: more } →
          kv ∈ sent (pollPass (fun (u : Unit) key => (f key, u)) keys ()).1)
      ∧ Action.wait ∉ (pollPass Get keys s).1
      ∧ ∃ tail, (pollLoop Get keys selects s).1
          = Action.log "poll_start" "" :: (pollPass Get keys s).1 ++ tail := by
  have h4 : sent (pollPass (fun (u : Unit) key => (f key, u)) keys ()).1
      = keys.filterMap (fun key => firstValue (f key)) := by
    rw [sent_pollPass, lookups_stateless, List.filterMap_map]
    rfl
  refine ⟨lookedUp_pollPass Get keys s, lookups_keys Get keys s, sent_pollPass Get keys s,
    h4, ?_, wait_not_mem_pollPass Get keys s, pollLoop_starts_with_pass Get keys selects s⟩
  intro key kv more hk hf
  rw [h4, List.mem_filterMap]
  exact ⟨key, hk, by simp [hf, firstValue]⟩

theorem live_init : StreamState.init.Live := by
  intro _
  simp [StreamState.init]

theorem live_step (keys : List String) (s s1 : StreamState) (l : Label)
    (hstep : step keys s l = some s1) (hs : s.Live) : s1.Live := by
  intro hc
  cases l with
  | callerCancel =>
    simp only [step, Option.some.injEq] at hstep
    subst hstep
    simp at hc
  | watchOpen =>
    simp only [step] at hstep
    split at hstep
    · simp only [Option.some.injEq] at hstep
      subst hstep
      have := hs hc
      simp_all
    · simp at hstep
  | watchRecv resp =>
    simp only [step] at hstep
    split at hstep
    · simp only [Option.some.injEq] at hstep
      subst hstep
      have := hs hc
      simp_all
    · simp at hstep
  | watchChanClosed =>
    simp only [step] at hstep
    split at hstep
    · simp only [Option.some.injEq] at hstep
      subst hstep
      have := hs hc
      simp_all
    · simp at hstep
  | watchRetry =>
    simp only [step] at hstep
    split at hstep
    · simp only [Option.some.injEq] at hstep
      subst hstep
      have := hs hc
      simp_all
    · simp at hstep
  | watchCtxDone =>
    simp only [step] at hstep
    split at hstep
    · rename_i hen
      simp only [Option.some.injEq] at hstep
      subst hstep
      have := hs hc
      simp [StreamState.ctxDone] at hen
      simp_all
    · simp at hstep
  | pollRun answers =>
    simp only [step] at hstep
    split at hstep
    · simp only [Option.some.injEq] at hstep
      subst hstep
      have := hs hc
      simp_all
    · simp at hstep
  | pollTick =>
    simp only [step] at hstep
    split at hstep
    · simp only [Option.some.injEq] at hstep
      subst hstep
      have := hs hc
      simp_all
    · simp at hstep
  | pollCtxDone =>
    simp only [step] at hstep
    split at hstep
    · rename_i hen
      simp only [Option.some.injEq] at hstep
      subst hstep
      have := hs hc
      simp [StreamState.ctxDone] at hen
      simp_all
    · simp at hstep
  | superviseClose =>
    simp only [step] at hstep
    split at hstep
    · rename_i hen
      simp only [Option.some.injEq] at hstep
      subst hstep
      have := hs hc
      simp_all
    · simp at hstep

theorem live_run (keys : List String) (labels : List Label) (s s1 : StreamState)
    (hrun : run keys s labels = some s1) (hs : s.Live) : s1.Live := by
  induction labels generalizing s with
  | nil =>
    simp only [run, Option.some.injEq] at hrun
    subst hrun
    exact hs
  | cons l rest ih =>
    simp only [run] at hrun
    cases hst : step keys s l with
    | none => simp [hst] at hrun
    | some s2 =>
      simp only [hst] at hrun
      exact ih s2 hrun (live_step keys s s2 l hst hs)

/-- C6: in every state the stream reaches from its start by any sequence of moves (watch
batches with or without advisory error, watch channel closures, retries, poll passes with
any lookup outcomes, ticks), as long as the caller has not cancelled its scope: neither
loop is stopped, the shared scope has not been cancelled, out and done are not closed; the
stopping moves of both loops and the closing move of the supervisor are not possible; a
watch batch (error or not) leaves the watch loop receiving; a closed watch channel leads,
through the retry timer, back to the loop top; a poll pass leads, through the interval
timer, back to the loop top. -/
theorem stream_stops_only_on_caller_cancel (keys : List String) (labels : List Label)
    (s : StreamState) (hrun : run keys StreamState.init labels = some s)
    (hlive : s.callerDone = false) :
    s.watch ≠ WatchPc.stopped ∧ s.poll ≠ PollPc.stopped ∧ s.cancelled = false
      ∧ s.outClosed = false ∧ s.doneClosed = false
      ∧ step keys s Label.watchCtxDone = none
      ∧ step keys s Label.pollCtxDone = none
      ∧ step keys s Label.superviseClose = none
      ∧ (∀ resp, s.watch = WatchPc.ranging →
          ∃ s1, step keys s (Label.watchRecv resp) = some s1
            ∧ s1.watch = WatchPc.ranging ∧ s1.callerDone = false)
      ∧ (s.watch = WatchPc.ranging →
          ∃ s1 s2, step keys s Label.watchChanClosed = some s1
            ∧ step keys s1 Label.watchCtxDone = none
            ∧ step keys s1 Label.watchRetry = some s2 ∧ s2.watch = WatchPc.watchStart)
      ∧ (∀ answers, s.poll = PollPc.pollStart →
          ∃ s1 s2, step keys s (Label.pollRun answers) = some s1
            ∧ step keys s1 Label.pollCtxDone = none
            ∧ step keys s1 Label.pollTick = some s2 ∧ s2.poll = PollPc.pollStart) := by
  obtain ⟨hw, hp, hcan, hout, hdone, hwg⟩ := live_run keys labels _ s hrun live_init hlive
  refine ⟨hw, hp, hcan, hout, hdone, ?_, ?_, ?_, ?_, ?_, ?_⟩
  · simp [step, StreamState.ctxDone, hlive, hcan]
  · simp [step, StreamState.ctxDone, hlive, hcan]
  · simp [step, hwg]
  · intro resp hr
    exact ⟨{ s with out := s.out ++ sent (handleWatchResponse keys resp) },
      by simp [step, hr], hr, hlive⟩
  · intro hr
    refine ⟨{ s with watch := WatchPc.selecting }, { s with watch := WatchPc.watchStart },
      by simp [step, hr], by simp [step, StreamState.ctxDone, hlive, hcan],
      by simp [step], rfl⟩
  · intro answers hr
    refine ⟨{ s with poll := PollPc.selecting,
                     out := s.out ++ sent (pollPass (scriptedGet answers) keys 0).1 },
      { s with poll := PollPc.pollStart,
               out := s.out ++ sent (pollPass (scriptedGet answers) keys 0).1 },
      by simp [step, hr], by simp [step, StreamState.ctxDone, hlive, hcan],
      by simp [step], rfl⟩

/-- Witness of C6: after a watch batch carrying an advisory error, a closed watch channel
and a poll pass whose only lookup fails, with the caller's scope live. -/
theorem stream_stops_only_on_caller_cancel_witness :
    run ["/a"] StreamState.init
        [Label.watchOpen,
         Label.watchRecv { Err := some "etcdserver: no leader",
                           Events := [{ Kv := { Key := "/a", Value := "1" } },
                                      { Kv := { Key := "/b", Value := "2" } }] },
         Label.watchChanClosed,
         Label.pollRun (fun _ _ => Except.error "context deadline exceeded")]
      = some { callerDone := false, cancelled := false, watch := WatchPc.selecting,
               poll := PollPc.selecting, wg := 2, out := [{ Key := "/a", Value := "1" }],
               outClosed := false, doneClosed := false }
      ∧ step ["/a"]
          { callerDone := false, cancelled := false, watch := WatchPc.selecting,
            poll := PollPc.selecting, wg := 2, out := [{ Key := "/a", Value := "1" }],
            outClosed := false, doneClosed := false } Label.watchCtxDone = none := by
  have hrun : run ["/a"] StreamState.init
        [Label.watchOpen,
         Label.watchRecv { Err := some "etcdserver: no leader",
                           Events := [{ Kv := { Key := "/a", Value := "1" } },
                                      { Kv := { Key := "/b", Value := "2" } }] },
         Label.watchChanClosed,
         Label.pollRun (fun _ _ => Except.error "context deadline exceeded")]
      = some { callerDone := false, cancelled := false, watch := WatchPc.selecting,
               poll := PollPc.selecting, wg := 2, out := [{ Key := "/a", Value := "1" }],
               outClosed := false, doneClosed := false } := by
    decide
  exact ⟨hrun, (stream_stops_only_on_caller_cancel _ _ _ hrun rfl).2.2.2.2.2.1⟩

/-- Once the caller has cancelled, the protocol runs to completion: both loops stop and
the supervisor closes out and done. -/
theorem stream_shutdown_after_cancel :
    run ["/a"] StreamState.init
        [Label.watchOpen, Label.pollRun (fun _ _ => Except.ok { Kvs := [] }),
         Label.callerCancel, Label.watchChanClosed, Label.watchCtxDone,
         Label.pollCtxDone, Label.superviseClose]
      = some { callerDone := true, cancelled := true, watch := WatchPc.stopped,
               poll := PollPc.stopped, wg := 0, out := [],
               outClosed := true, doneClosed := true } := by
  decide

end etcd

/-! # Theorems: failover server -/

namespace failover

theorem mustTimestampProto_ok (t : Int) (h1 : -9223372036854775808 ≤ t)
    (h2 : t < 18446744073709551616) :
    mustTimestampProto t
      = Except.ok { Seconds := t / 1000000000, Nanos := t % 1000000000 } := by
  have a : ¬ (t / 1000000000 < minValidSeconds) := by unfold minValidSeconds; omega
  have b : ¬ (t / 1000000000 ≥ maxValidSeconds) := by unfold maxValidSeconds; omega
  have c : ¬ (t % 1000000000 < 0 ∨ t % 1000000000 ≥ 1000000000) := by omega
  unfold mustTimestampProto TimestampProto
  simp only [if_neg a, if_neg b, if_neg c]

theorem toNanos_split (t : Int) :
    Timestamp.toNanos { Seconds := t / 1000000000, Nanos := t % 1000000000 } = t := by
  unfold Timestamp.toNanos
  simp only
  omega

/-- What Pause does when the pooler's pause fails: no goroutine, no response, and an error
chosen by the value of timeoutCtx.Err() when the pooler returns. -/
theorem Pause_on_failure {σ : Type} (srv : Server σ) (ctx : Context) (req : PauseRequest)
    (s : σ) (err : String)
    (hfail : (srv.bouncer.Pause (WithTimeout ctx (srv.clock s) req.Timeout) s).1 = some err) :
    (Pause srv ctx req s).spawned = []
      ∧ (Pause srv ctx req s).result
        = Except.ok (none,
            some (if (WithTimeout ctx (srv.clock s) req.Timeout).Err
                      (srv.clock (srv.bouncer.Pause
                        (WithTimeout ctx (srv.clock s) req.Timeout) s).2) = none
                  then ⟨Code.Unknown, err⟩
                  else ⟨Code.DeadlineExceeded, "exceeded pause timeout"⟩)) := by
  rcases hp : srv.bouncer.Pause (WithTimeout ctx (srv.clock s) req.Timeout) s with ⟨r, s1⟩
  rw [hp] at hfail
  simp only at hfail
  subst hfail
  simp only [Pause, hp]
  split <;> simp_all

/-- What Pause starts when the pooler's pause succeeds. -/
theorem Pause_spawned_on_success {σ : Type} (srv : Server σ) (ctx : Context)
    (req : PauseRequest) (s : σ)
    (hok : (srv.bouncer.Pause (WithTimeout ctx (srv.clock s) req.Timeout) s).1 = none) :
    (Pause srv ctx req s).spawned
      = if req.Expiry > 0 then
          [{ expiresAt := srv.clock s + req.Expiry, timeout := req.Timeout }]
        else [] := by
  rcases hp : srv.bouncer.Pause (WithTimeout ctx (srv.clock s) req.Timeout) s with ⟨r, s1⟩
  rw [hp] at hok
  simp only at hok
  subst hok
  simp only [Pause, hp]
  cases mustTimestampProto (srv.clock s) with
  | error p => rfl
  | ok c =>
    cases mustTimestampProto (srv.clock s + req.Expiry) with
    | error p => rfl
    | ok e => rfl

theorem Pause_spawned {σ : Type} (srv : Server σ) (ctx : Context) (req : PauseRequest)
    (s : σ) :
    (Pause srv ctx req s).spawned
      = if poolerPauseOk srv { ctx := ctx, req := req } s = true ∧ req.Expiry > 0 then
          [{ expiresAt := srv.clock s + req.Expiry, timeout := req.Timeout }]
        else [] := by
  cases hp : (srv.bouncer.Pause (WithTimeout ctx (srv.clock s) req.Timeout) s).1 with
  | none =>
    rw [Pause_spawned_on_success srv ctx req s hp]
    simp [poolerPauseOk, hp]
  | some err =>
    rw [(Pause_on_failure srv ctx req s err hp).1]
    simp [poolerPauseOk, hp]

theorem runPauses_length {σ : Type} (srv : Server σ) (calls : List PauseCall) (s : σ) :
    (runPauses srv calls s).1.length = countScheduling srv calls s := by
  induction calls generalizing s with
  | nil => rfl
  | cons c rest ih =>
    simp only [runPauses, countScheduling, List.length_append, ih]
    rw [Pause_spawned]
    split <;> simp

/-- C1 (evaluation at the failing input): the caller cancels its scope 1 ms after the
start of a Pause with a 100 ms timeout, the pooler's pause fails 1 ms later with
"context canceled".  The deadline has not expired (it lies 98 ms ahead) and timeoutCtx.Err()
is Canceled, yet Pause answers DeadlineExceeded "exceeded pause timeout" instead of Unknown
with the pooler's message. -/
theorem pause_cancelled_before_deadline_reports_deadline :
    (Pause (recordingServer (fun _ => some "context canceled") 2000000)
        { doneAt := some (1000000, CtxErr.Canceled), incoming := none }
        { Timeout := 100000000, Expiry := 0 }
        { clock := 0, calls := [] }).result
      = Except.ok (none, some ⟨Code.DeadlineExceeded, "exceeded pause timeout"⟩)
    ∧ (WithTimeout { doneAt := some (1000000, CtxErr.Canceled), incoming := none }
        0 100000000).Err 2000000 = some CtxErr.Canceled
    ∧ ¬ ((0 : Int) + 100000000 ≤ 2000000)
    ∧ (Pause (recordingServer (fun _ => some "context canceled") 2000000)
        { doneAt := some (1000000, CtxErr.Canceled), incoming := none }
        { Timeout := 100000000, Expiry := 0 }
        { clock := 0, calls := [] }).result
      ≠ Except.ok (none, some ⟨Code.Unknown, "context canceled"⟩) := by
  have h : (Pause (recordingServer (fun _ => some "context canceled") 2000000)
        { doneAt := some (1000000, CtxErr.Canceled), incoming := none }
        { Timeout := 100000000, Expiry := 0 }
        { clock := 0, calls := [] }).result
      = Except.ok (none, some ⟨Code.DeadlineExceeded, "exceeded pause timeout"⟩) := rfl
  refine ⟨h, by decide, by decide, ?_⟩
  rw [h]
  intro hne
  injection hne with h1
  injection h1 with _ h2
  injection h2 with h3
  injection h3 with h4
  exact absurd h4 (by decide)

/-- C3: for every Pause request (any timeout, any int64 expiry, zero included) whose
pooler pause succeeds, with the clock between 1970 and 2262, Pause returns a response and
a nil error; createdAt denotes the instant read at the start of the call and expiresAt
denotes createdAt + expiry; with expiry 0 the two timestamps are equal. -/
theorem pause_success_response {σ : Type} (srv : Server σ) (ctx : Context)
    (req : PauseRequest) (s : σ)
    (hok : (srv.bouncer.Pause (WithTimeout ctx (srv.clock s) req.Timeout) s).1 = none)
    (hclock : clockInRange (srv.clock s)) (hexp : isInt64 req.Expiry) :
    ∃ resp : PauseResponse,
      (Pause srv ctx req s).result = Except.ok (some resp, none)
        ∧ resp.CreatedAt.toNanos = srv.clock s
        ∧ resp.ExpiresAt.toNanos = srv.clock s + req.Expiry
        ∧ resp.ExpiresAt.toNanos = resp.CreatedAt.toNanos + req.Expiry
        ∧ (req.Expiry = 0 → resp.ExpiresAt = resp.CreatedAt) := by
  obtain ⟨hc1, hc2⟩ := hclock
  obtain ⟨he1, he2⟩ := hexp
  have hcreated := mustTimestampProto_ok (srv.clock s) (by omega) (by omega)
  have hexpires := mustTimestampProto_ok (srv.clock s + req.Expiry) (by omega) (by omega)
  rcases hp : srv.bouncer.Pause (WithTimeout ctx (srv.clock s) req.Timeout) s with ⟨r, s1⟩
  rw [hp] at hok
  simp only at hok
  subst hok
  refine ⟨{ CreatedAt := { Seconds := srv.clock s / 1000000000,
                           Nanos := srv.clock s % 1000000000 },
            ExpiresAt := { Seconds := (srv.clock s + req.Expiry) / 1000000000,
                           Nanos := (srv.clock s + req.Expiry) % 1000000000 } },
    ?_, toNanos_split _, toNanos_split _, ?_, ?_⟩
  · simp only [Pause, hp, hcreated, hexpires]
  · rw [toNanos_split, toNanos_split]
  · intro h0
    simp [h0]

/-- Witness of C3: Pause(timeout = 1 s, expiry = 200 ms) at an instant in 2019. -/
theorem pause_success_response_witness :
    ∃ resp : PauseResponse,
      (Pause (recordingServer (fun _ => none) 5000000) Background
          { Timeout := 1000000000, Expiry := 200000000 }
          { clock := 1560000000123456789, calls := [] }).result
        = Except.ok (some resp, none)
        ∧ resp.CreatedAt.toNanos = 1560000000123456789
        ∧ resp.ExpiresAt.toNanos = 1560000000123456789 + 200000000
        ∧ resp.ExpiresAt.toNanos = resp.CreatedAt.toNanos + 200000000
        ∧ ((200000000 : Int) = 0 → resp.ExpiresAt = resp.CreatedAt) :=
  pause_success_response (recordingServer (fun _ => none) 5000000) Background
    { Timeout := 1000000000, Expiry := 200000000 }
    { clock := 1560000000123456789, calls := [] } rfl (by decide) (by decide)

theorem AutoResume_body_state {σ : Type} (task : AutoResume) (srv : Server σ) (s0 w : σ) :
    (task.body srv s0 w).2
      = (srv.bouncer.Resume
          { doneAt := some (srv.clock w + task.timeout, CtxErr.DeadlineExceeded),
            incoming := none } w).2 := by
  have hctx : WithTimeout Background (srv.clock w) task.timeout
      = { doneAt := some (srv.clock w + task.timeout, CtxErr.DeadlineExceeded),
          incoming := none } := rfl
  rcases hr : srv.bouncer.Resume
      { doneAt := some (srv.clock w + task.timeout, CtxErr.DeadlineExceeded),
        incoming := none } w with ⟨r, w1⟩
  cases r <;> simp only [AutoResume.body, hctx, hr]

theorem AutoResume_body_sleep {σ : Type} (task : AutoResume) (srv : Server σ) (s0 w : σ) :
    ∃ more, (task.body srv s0 w).1
      = TaskAction.logScheduling task.expiresAt
          :: TaskAction.sleep (task.expiresAt - srv.clock s0)
          :: TaskAction.logExecuting :: more := by
  rcases hr : srv.bouncer.Resume (WithTimeout Background (srv.clock w) task.timeout) w
    with ⟨r, w1⟩
  cases r with
  | none => exact ⟨[], by simp only [AutoResume.body, hr]⟩
  | some err => exact ⟨[TaskAction.logFailed err], by simp only [AutoResume.body, hr]⟩

/-- C2: a Pause call starts exactly one auto-resume goroutine, scheduled at
expiresAt = createdAt + expiry and carrying the request's timeout, when the pooler's pause
succeeded and expiry > 0, and none otherwise (expiry 0, or pooler pause failed).  The
goroutine sleeps for the time left until expiresAt and then makes one pooler resume call,
under a context built from Background with the deadline (wake-up instant + timeout), in
which the call's own context does not occur.  For every sequence of Pause calls the number
of goroutines started is the number of calls whose pooler pause succeeded with expiry > 0;
two such calls, in whatever states of the world they run, start two goroutines. -/
theorem pause_schedules_one_auto_resume {σ : Type} (srv : Server σ) (ctx : Context)
    (req : PauseRequest) (s : σ) (calls : List PauseCall) (c1 c2 : PauseCall) (sa sb : σ)
    (task : AutoResume) (s0 w : σ) (answer : Call → Option String) (latency : Int)
    (w0 : World) :
    (Pause srv ctx req s).spawned
        = (if poolerPauseOk srv { ctx := ctx, req := req } s = true ∧ req.Expiry > 0 then
            [{ expiresAt := srv.clock s + req.Expiry, timeout := req.Timeout }]
          else [])
      ∧ (req.Expiry = 0 → (Pause srv ctx req s).spawned = [])
      ∧ (poolerPauseOk srv { ctx := ctx, req := req } s = false →
          (Pause srv ctx req s).spawned = [])
      ∧ (∃ more, (task.body srv s0 w).1
          = TaskAction.logScheduling task.expiresAt
              :: TaskAction.sleep (task.expiresAt - srv.clock s0)
              :: TaskAction.logExecuting :: more)
      ∧ (task.body srv s0 w).2
        = (srv.bouncer.Resume
            { doneAt := some (srv.clock w + task.timeout, CtxErr.DeadlineExceeded),
              incoming := none } w).2
      ∧ (task.body (recordingServer answer latency) w0 w0).2.calls
        = w0.calls ++ [Call.Resume
            { doneAt := some (w0.clock + task.timeout, CtxErr.DeadlineExceeded),
              incoming := none }]
      ∧ (runPauses srv calls s).1.length = countScheduling srv calls s
      ∧ (poolerPauseOk srv c1 sa = true → c1.req.Expiry > 0 →
          poolerPauseOk srv c2 sb = true → c2.req.Expiry > 0 →
          (Pause srv c1.ctx c1.req sa).spawned ++ (Pause srv c2.ctx c2.req sb).spawned
            = [{ expiresAt := srv.clock sa + c1.req.Expiry, timeout := c1.req.Timeout },
               { expiresAt := srv.clock sb + c2.req.Expiry, timeout := c2.req.Timeout }]) := by
  refine ⟨Pause_spawned srv ctx req s, ?_, ?_, AutoResume_body_sleep task srv s0 w,
    AutoResume_body_state task srv s0 w, ?_, runPauses_length srv calls s, ?_⟩
  · intro h0
    rw [Pause_spawned]
    simp [h0]
  · intro hf
    rw [Pause_spawned]
    simp [hf]
  · rw [AutoResume_body_state]
    rfl
  · intro h1 e1 h2 e2
    simp only [Pause_spawned, h1, e1, h2, e2, and_self, if_true, List.singleton_append]

/-- Witness of C2: two successful Pause calls with positive expiry, the second arriving
while the first pause is still in force, start two goroutines. -/
theorem pause_schedules_one_auto_resume_witness :
    (Pause (recordingServer (fun _ => none) 5000000) Background
          { Timeout := 1000000000, Expiry := 200000000 } { clock := 0, calls := [] }).spawned
        ++ (Pause (recordingServer (fun _ => none) 5000000) Background
          { Timeout := 1000000000, Expiry := 300000000 }
          { clock := 3000000, calls := [] }).spawned
      = [{ expiresAt := 200000000, timeout := 1000000000 },
         { expiresAt := 303000000, timeout := 1000000000 }] :=
  (pause_schedules_one_auto_resume (recordingServer (fun _ => none) 5000000) Background
    { Timeout := 1000000000, Expiry := 200000000 } { clock := 0, calls := [] } []
    { ctx := Background, req := { Timeout := 1000000000, Expiry := 200000000 } }
    { ctx := Background, req := { Timeout := 1000000000, Expiry := 300000000 } }
    { clock := 0, calls := [] } { clock := 3000000, calls := [] }
    { expiresAt := 0, timeout := 0 } { clock := 0, calls := [] } { clock := 0, calls := [] }
    (fun _ => none) 0 { clock := 0, calls := [] }).2.2.2.2.2.2.2 rfl (by decide) rfl
      (by decide)

/-- C7: Resume calls the pooler's resume once, under the caller's context (the world it
leaves is the one left by that single call; a recording pooler has recorded exactly that
call).  If the call fails, Resume returns no response and an Unknown error whose message
is "failed to resume pgbouncer: " followed by the pooler's message.  If it succeeds, with
the clock between 1970 and 2262, Resume returns a nil error and a response whose createdAt
denotes the instant read after the call. -/
theorem resume_once_and_unknown_on_failure {σ : Type} (srv : Server σ) (ctx : Context)
    (s : σ) (answer : Call → Option String) (latency : Int) (w0 : World) :
    (Resume srv ctx s).2 = (srv.bouncer.Resume ctx s).2
      ∧ (Resume (recordingServer answer latency) ctx w0).2.calls
        = w0.calls ++ [Call.Resume ctx]
      ∧ (∀ err, (srv.bouncer.Resume ctx s).1 = some err →
          (Resume srv ctx s).1
              = Except.ok (none,
                  some ⟨Code.Unknown, "failed to resume pgbouncer: " ++ err⟩)
            ∧ err.data <:+: ("failed to resume pgbouncer: " ++ err).data)
      ∧ ((srv.bouncer.Resume ctx s).1 = none →
          clockInRange (srv.clock (srv.bouncer.Resume ctx s).2) →
          ∃ resp : ResumeResponse,
            (Resume srv ctx s).1 = Except.ok (some resp, none)
              ∧ resp.CreatedAt.toNanos = srv.clock (srv.bouncer.Resume ctx s).2) := by
  have hstate : ∀ {τ : Type} (sv : Server τ) (t : τ),
      (Resume sv ctx t).2 = (sv.bouncer.Resume ctx t).2 := by
    intro τ sv t
    rcases hr : sv.bouncer.Resume ctx t with ⟨r, t1⟩
    cases r with
    | some err => simp only [Resume, hr]
    | none =>
      simp only [Resume, hr]
      cases mustTimestampProto (sv.clock t1) <;> rfl
  refine ⟨hstate srv s, ?_, ?_, ?_⟩
  · rw [hstate]
    rfl
  · intro err herr
    rcases hr : srv.bouncer.Resume ctx s with ⟨r, s1⟩
    rw [hr] at herr
    simp only at herr
    subst herr
    refine ⟨by simp only [Resume, hr], ?_⟩
    rw [String.data_append]
    exact List.suffix_append _ _ |>.isInfix
  · intro hnone hclock
    rcases hr : srv.bouncer.Resume ctx s with ⟨r, s1⟩
    rw [hr] at hnone hclock
    simp only at hnone hclock
    subst hnone
    obtain ⟨h1, h2⟩ := hclock
    have hts := mustTimestampProto_ok (srv.clock s1) (by omega) (by omega)
    exact ⟨{ CreatedAt := { Seconds := srv.clock s1 / 1000000000,
                            Nanos := srv.clock s1 % 1000000000 } },
      by simp only [Resume, hr, hts], toNanos_split _⟩

/-- Witness of C7: a failing and a succeeding Resume against the recording pooler. -/
theorem resume_once_and_unknown_on_failure_witness :
    (Resume (recordingServer (fun _ => some "connection refused") 1000) Background
        { clock := 1560000000000000000, calls := [] }).1
      = Except.ok (none,
          some ⟨Code.Unknown, "failed to resume pgbouncer: " ++ "connection refused"⟩)
    ∧ ∃ resp : ResumeResponse,
        (Resume (recordingServer (fun _ => none) 1000) Background
            { clock := 1560000000000000000, calls := [] }).1
          = Except.ok (some resp, none)
          ∧ resp.CreatedAt.toNanos = 1560000000000001000 :=
  ⟨((resume_once_and_unknown_on_failure
      (recordingServer (fun _ => some "connection refused") 1000) Background
      { clock := 1560000000000000000, calls := [] } (fun _ => none) 0
      { clock := 0, calls := [] }).2.2.1 "connection refused" rfl).1,
   (resume_once_and_unknown_on_failure
      (recordingServer (fun _ => none) 1000) Background
      { clock := 1560000000000000000, calls := [] } (fun _ => none) 0
      { clock := 0, calls := [] }).2.2.2 rfl (by decide)⟩

/-- C8 (counterexample): a Resume whose context deadline expired before the pooler's
resume failed with "context deadline exceeded" and a Resume whose pooler resume failed
with "connection refused" under a live context get the same code, Unknown: the deadline
failure is not classified differently. -/
theorem resume_deadline_failure_not_distinct :
    (({ doneAt := some (50, CtxErr.DeadlineExceeded), incoming := none } : Context).Err 100
        = some CtxErr.DeadlineExceeded)
    ∧ Background.Err 100 = none
    ∧ replyCode (Resume (recordingServer (fun _ => some "context deadline exceeded") 100)
          { doneAt := some (50, CtxErr.DeadlineExceeded), incoming := none }
          { clock := 0, calls := [] }).1 = some Code.Unknown
    ∧ replyCode (Resume (recordingServer (fun _ => some "connection refused") 100)
          Background { clock := 0, calls := [] }).1 = some Code.Unknown
    ∧ ¬ (replyCode (Resume (recordingServer (fun _ => some "context deadline exceeded") 100)
            { doneAt := some (50, CtxErr.DeadlineExceeded), incoming := none }
            { clock := 0, calls := [] }).1
          ≠ replyCode (Resume (recordingServer (fun _ => some "connection refused") 100)
              Background { clock := 0, calls := [] }).1) := by
  refine ⟨by decide, by decide, rfl, rfl, ?_⟩
  intro h
  exact h rfl

/-- C8 (amended): Resume has no deadline classification.  For every Resume call whose
pooler resume fails, whatever the state of the call's context when it fails (live,
cancelled or past its deadline), the error returned is Unknown with the message
"failed to resume pgbouncer: " followed by the pooler's message, never DeadlineExceeded. -/
theorem resume_failure_always_unknown {σ : Type} (srv : Server σ) (ctx : Context) (s : σ)
    (err : String) (e : Option CtxErr)
    (hfail : (srv.bouncer.Resume ctx s).1 = some err)
    (_hctx : ctx.Err (srv.clock (srv.bouncer.Resume ctx s).2) = e) :
    (Resume srv ctx s).1
        = Except.ok (none, some ⟨Code.Unknown, "failed to resume pgbouncer: " ++ err⟩)
      ∧ replyCode (Resume srv ctx s).1 = some Code.Unknown
      ∧ replyCode (Resume srv ctx s).1 ≠ some Code.DeadlineExceeded := by
  rcases hr : srv.bouncer.Resume ctx s with ⟨r, s1⟩
  rw [hr] at hfail
  simp only at hfail
  subst hfail
  have h : (Resume srv ctx s).1
      = Except.ok (none, some ⟨Code.Unknown, "failed to resume pgbouncer: " ++ err⟩) := by
    simp only [Resume, hr]
  refine ⟨h, ?_, ?_⟩
  · rw [h]; rfl
  · rw [h]; simp [replyCode]

/-- Witness of the amended C8: the pooler's resume fails after the deadline of the call's
context has passed. -/
theorem resume_failure_always_unknown_witness :
    (Resume (recordingServer (fun _ => some "context deadline exceeded") 100)
        { doneAt := some (50, CtxErr.DeadlineExceeded), incoming := none }
        { clock := 0, calls := [] }).1
        = Except.ok (none,
            some ⟨Code.Unknown,
              "failed to resume pgbouncer: " ++ "context deadline exceeded"⟩)
      ∧ replyCode (Resume (recordingServer (fun _ => some "context deadline exceeded") 100)
          { doneAt := some (50, CtxErr.DeadlineExceeded), incoming := none }
          { clock := 0, calls := [] }).1 = some Code.Unknown
      ∧ replyCode (Resume (recordingServer (fun _ => some "context deadline exceeded") 100)
          { doneAt := some (50, CtxErr.DeadlineExceeded), incoming := none }
          { clock := 0, calls := [] }).1 ≠ some Code.DeadlineExceeded :=
  resume_failure_always_unknown
    (recordingServer (fun _ => some "context deadline exceeded") 100)
    { doneAt := some (50, CtxErr.DeadlineExceeded), incoming := none }
    { clock := 0, calls := [] } "context deadline exceeded"
    (some CtxErr.DeadlineExceeded) rfl (by decide)

/-- C9: for every outcome of the liveness probe, HealthCheck returns a nil error and a
response with exactly one component, named "PgBouncer", whose status is also the aggregate
status: UNHEALTHY with the probe's error message in the error field when the probe fails,
HEALTHY with an empty error field when it succeeds.  The probe is called once. -/
theorem healthcheck_mirrors_pooler_probe {σ : Type} (srv : Server σ) (ctx : Context)
    (s : σ) :
    (HealthCheck srv ctx s).1
        = (match (srv.bouncer.ShowDatabases ctx s).1 with
          | some err =>
            (some { Status := HealthStatus.UNHEALTHY,
                    Components := [{ Name := "PgBouncer", Status := HealthStatus.UNHEALTHY,
                                     Error := err }] }, none)
          | none =>
            (some { Status := HealthStatus.HEALTHY,
                    Components := [{ Name := "PgBouncer", Status := HealthStatus.HEALTHY,
                                     Error := "" }] }, none))
      ∧ (HealthCheck srv ctx s).2 = (srv.bouncer.ShowDatabases ctx s).2
      ∧ (∃ c resp, (HealthCheck srv ctx s).1 = (some resp, none)
          ∧ resp.Components = [c] ∧ c.Name = "PgBouncer" ∧ resp.Status = c.Status) := by
  unfold HealthCheck
  cases h : (srv.bouncer.ShowDatabases ctx s).1 with
  | none =>
    exact ⟨by simp [h], rfl,
      { Name := "PgBouncer", Status := HealthStatus.HEALTHY, Error := "" },
      { Status := HealthStatus.HEALTHY,
        Components := [{ Name := "PgBouncer", Status := HealthStatus.HEALTHY,
                         Error := "" }] },
      by simp [h], rfl, rfl, rfl⟩
  | some err =>
    exact ⟨by simp [h], rfl,
      { Name := "PgBouncer", Status := HealthStatus.UNHEALTHY, Error := err },
      { Status := HealthStatus.UNHEALTHY,
        Components := [{ Name := "PgBouncer", Status := HealthStatus.UNHEALTHY,
                         Error := err }] },
      by simp [h], rfl, rfl, rfl⟩

/-- What the authentication interceptor does in each case of the source. -/
theorem NewAuthenticationInterceptor_cases {σ ρ : Type} (token : String) (ctx : Context)
    (handler : Context → σ → Reply ρ × σ) (s : σ) :
    (token = "" → NewAuthenticationInterceptor token ctx handler s
        = Except.ok (handler ctx s))
      ∧ (token ≠ "" → ctx.incoming = none →
          NewAuthenticationInterceptor token ctx handler s
            = Except.ok ((none, some ⟨Code.Unauthenticated, "no metadata provided"⟩), s))
      ∧ (∀ md, token ≠ "" → ctx.incoming = some md → md.lookup "authorization" = none →
          NewAuthenticationInterceptor token ctx handler s
            = Except.ok
                ((none, some ⟨Code.Unauthenticated, "missing authorization header"⟩), s))
      ∧ (∀ md first more, token ≠ "" → ctx.incoming = some md →
          md.lookup "authorization" = some (first :: more) →
          NewAuthenticationInterceptor token ctx handler s
            = if first = token then Except.ok (handler ctx s)
              else Except.ok
                ((none, some ⟨Code.Unauthenticated, "invalid access token"⟩), s))
      ∧ (∀ md, token ≠ "" → ctx.incoming = some md →
          md.lookup "authorization" = some [] →
          NewAuthenticationInterceptor token ctx handler s
            = Except.error "runtime error: index out of range [0] with length 0") := by
  refine ⟨?_, ?_, ?_, ?_, ?_⟩
  · intro h
    simp [NewAuthenticationInterceptor, h]
  · intro h hmd
    simp [NewAuthenticationInterceptor, FromIncomingContext, h, hmd]
  · intro md h hmd hl
    simp [NewAuthenticationInterceptor, FromIncomingContext, h, hmd, hl]
  · intro md first more h hmd hl
    by_cases hf : first = token
    · simp [NewAuthenticationInterceptor, FromIncomingContext, h, hmd, hl, hf]
    · simp [NewAuthenticationInterceptor, FromIncomingContext, h, hmd, hl, hf]
  · intro md h hmd hl
    simp [NewAuthenticationInterceptor, FromIncomingContext, h, hmd, hl]

/-- C10 (evaluation at the failing input): with the token "secret" configured, a request
whose metadata holds the key "authorization" with an empty value list makes the
interceptor panic on authHeader[0] (index out of range); it returns neither the
Unauthenticated error nor the handler's reply. -/
theorem auth_interceptor_panics_on_empty_header :
    NewAuthenticationInterceptor "secret"
        { doneAt := none, incoming := some [("authorization", [])] } countingHandler 0
      = Except.error "runtime error: index out of range [0] with length 0" := by
  rfl

end failover
